import Mathlib

/-!
Verification of the graceful-shutdown subsystem of the concierge backend.

The embedding translates the source files of the shutdown path:
  - format-unknown.ts  (`formatUnknown`)
  - shutdown.ts        (`shutdown`, module-level `shutdownPromise`)
  - perform-shutdown.ts (`performShutdown`)
  - graceful-shutdown.ts (`registerGracefulShutdown`)
  - handlers.ts        (`onSigint`, `onSigterm`, `onUncaught`, `onUnhandled`)

JavaScript is single-threaded with cooperative scheduling: a function body
runs uninterrupted between `await` suspension points.  Stateful code is
embedded as explicit state passing; host primitives (the event-emitter
listener list, `setTimeout`, `JSON.stringify`) are modelled at the interface
the source uses.  Thrown exceptions are modelled by explicit outcome values
that the embedded `try`/`catch` structure consumes.
-/

namespace Concierge

/-- The `ShutdownReason` union type from types.ts. -/
inductive ShutdownReason where
  | sigint
  | sigterm
  | uncaughtException
  | unhandledRejection
  | manual
deriving DecidableEq, Repr

/-- The string literal each `ShutdownReason` variant denotes in types.ts. -/
def reasonText : ShutdownReason → String
  | .sigint => "signal:SIGINT"
  | .sigterm => "signal:SIGTERM"
  | .uncaughtException => "uncaughtException"
  | .unhandledRejection => "unhandledRejection"
  | .manual => "manual"

/-!
## JavaScript values and `formatUnknown` (format-unknown.ts)

`JsValue` models the runtime values that can reach `formatUnknown`: `null`,
booleans, numbers, strings, plain objects (a field list plus a flag recording
whether the object participates in a reference cycle, which is what makes the
host `JSON.stringify` throw), and `Error` instances carrying `message` and an
optional `stack`.
-/

/-- A JavaScript runtime value as seen by `formatUnknown`. -/
inductive JsValue where
  | vNull
  | vBool (b : Bool)
  | vNum (n : Int)
  | vStr (s : String)
  | vObj (fields : List (String × JsValue)) (circular : Bool)
  | vErr (message : String) (stack : Option String)

/-- Whether a value is an `Error` instance (the `value instanceof Error` test). -/
def JsValue.isError : JsValue → Bool
  | .vErr _ _ => true
  | _ => false

/-- JSON string quoting (host primitive; escaping elided beyond quoting). -/
def jsonQuote (s : String) : String := "\"" ++ s ++ "\""

mutual

/-- The host `JSON.stringify`: `none` models the exception it throws on a
circular structure.  An `Error` serializes to an empty object because its
`message` and `stack` properties are non-enumerable. -/
def jsonStringify : JsValue → Option String
  | .vNull => some "null"
  | .vBool b => some (cond b "true" "false")
  | .vNum n => some (toString n)
  | .vStr s => some (jsonQuote s)
  | .vErr _ _ => some "\x7b\x7d"
  | .vObj fields circular =>
      if circular then none
      else
        match jsonStringifyFields fields with
        | some parts => some ("\x7b" ++ String.intercalate "," parts ++ "\x7d")
        | none => none

/-- Serialize the fields of an object, propagating a nested failure. -/
def jsonStringifyFields : List (String × JsValue) → Option (List String)
  | [] => some []
  | (k, v) :: rest =>
      match jsonStringify v with
      | none => none
      | some s =>
          match jsonStringifyFields rest with
          | none => none
          | some parts => some ((jsonQuote k ++ ":" ++ s) :: parts)

end

/-- The host `String(value)` conversion used as the fallback. -/
def jsToString : JsValue → String
  | .vNull => "null"
  | .vBool b => cond b "true" "false"
  | .vNum n => toString n
  | .vStr s => s
  | .vObj _ _ => "[object Object]"
  | .vErr message _ => "Error: " ++ message

/-- format-unknown.ts `formatUnknown`: `message + stack` for `Error`
instances; otherwise `JSON.stringify`, falling back to `String(value)` when
serialization throws.  The `try`/`catch` is embedded by matching on the
`Option` result, so the function is total: it never throws. -/
def formatUnknown (value : JsValue) : String :=
  match value with
  | .vErr message stack => message ++ "\n" ++ stack.getD ""
  | v =>
      match jsonStringify v with
      | some s => s
      | none => jsToString v

/-!
## The Executor (perform-shutdown.ts)

`performShutdown` is embedded as a pure function from the outcomes of its
awaited operations (each cleanup task and `app.close()`) to the sequence of
observable events it emits and the exit code it finally passes to
`process.exit`.  An awaited operation either resolves (`ok`) or rejects with
a thrown value (`threw`); the embedded `try`/`catch` blocks consume these
outcomes exactly where the source catches.  This model covers executions in
which every awaited operation completes before the timeout timer fires; the
timed model below adds durations and the timer race.
-/

/-- The outcome of awaiting a cleanup task or `app.close()`: it either
resolves or rejects with a thrown JavaScript value. -/
inductive AwaitOutcome where
  | ok
  | threw (e : JsValue)

/-- Observable events of the shutdown path, in program order. -/
inductive Ev where
  | armTimer (delayMs : Nat)
  | unrefTimer
  | logWarn (msg : String)
  | logError (msg : String)
  | logFatal (msg : String)
  | logInfo (msg : String)
  | invokeTask (idx : Nat) (reason : ShutdownReason)
  | appClose
  | clearTimer
  | processExit (code : Nat)
deriving DecidableEq, Repr

/-- The environment of one Executor run: the configured timeout and the
outcome of each awaited operation, in registration order. -/
structure ExecEnv where
  timeoutMs : Nat
  tasks : List AwaitOutcome
  closeOutcome : AwaitOutcome

/-- The cleanup-task loop of `performShutdown` (lines 24 to 31): invoke each
task with the reason, await it, and on rejection log the formatted error and
escalate the running exit code to 1, then continue with the next task.
`i` is the index of the first remaining task; `code` the running exit code. -/
def runTasks (reason : ShutdownReason) :
    List AwaitOutcome → Nat → Nat → List Ev × Nat
  | [], _, code => ([], code)
  | o :: rest, i, code =>
      match o with
      | AwaitOutcome.ok =>
          let res := runTasks reason rest (i + 1) code
          (Ev.invokeTask i reason :: res.1, res.2)
      | AwaitOutcome.threw e =>
          let res := runTasks reason rest (i + 1) 1
          (Ev.invokeTask i reason ::
            Ev.logError ("Error in cleanup task: " ++ formatUnknown e) :: res.1,
           res.2)

/-- The final log line of the `finally` block. -/
def exitLogMsg (code : Nat) (reason : ShutdownReason) : String :=
  "Process exiting with code " ++ toString code ++
    " (reason: " ++ reasonText reason ++ ")"

/-- perform-shutdown.ts `performShutdown`, for runs in which every awaited
operation completes before the timeout: arm and unref the timer, log the
start warning, run the cleanup-task loop, await `app.close()` (whose
rejection reaches the outer `catch`, which logs fatal and escalates), and in
the `finally` block clear the timer, log the final line and call
`process.exit` with the final exit code.  Returns the event trace and that
final exit code. -/
def performShutdown (reason : ShutdownReason) (exitCode : Nat)
    (env : ExecEnv) : List Ev × Nat :=
  let tasksRes := runTasks reason env.tasks 0 exitCode
  let closeRes : List Ev × Nat :=
    match env.closeOutcome with
    | AwaitOutcome.ok =>
        ([Ev.appClose, Ev.logInfo "Application closed successfully"], tasksRes.2)
    | AwaitOutcome.threw e =>
        ([Ev.appClose,
          Ev.logFatal ("Error during shutdown: " ++ formatUnknown e)], 1)
  ([Ev.armTimer env.timeoutMs, Ev.unrefTimer,
    Ev.logWarn ("Starting graceful shutdown (reason: " ++ reasonText reason ++ ")")]
    ++ tasksRes.1 ++ closeRes.1
    ++ [Ev.clearTimer, Ev.logInfo (exitLogMsg closeRes.2 reason),
        Ev.processExit closeRes.2], closeRes.2)

/-!
## The Coordinator (shutdown.ts)

shutdown.ts holds one module-level variable `shutdownPromise`, shared by the
whole process, and `shutdown(options)` returns an async closure whose body
(lines 17 to 36) contains no `await`: under JavaScript's cooperative
scheduling an async function runs uninterrupted until its first suspension
point, so the whole check-and-set executes atomically.  The body is embedded
as an explicit list of micro-operations (`shutdownBody`) — the grammar has a
`suspension` constructor so that the absence of suspension points is a
checkable property of the transliterated body — and `requestShutdown` is the
interpretation of that list as one state transition.

`CoordState` carries the module-level `shutdownPromise` (promise identities
are allocation-numbered), the `isShuttingDown` flag of every
registration-created `ShutdownState` (indexed by registration), and a count
of Executor invocations.  `performShutdown` never writes any
`ShutdownState`, so `requestShutdown` is the only writer of these fields.
-/

/-- Micro-operations of the body of the closure returned by `shutdown`.
`suspension` marks an `await`; the transliterated body contains none. -/
inductive Micro where
  | checkPromise
  | checkFlag
  | setFlag
  | storePromise
  | suspension
deriving DecidableEq, Repr

/-- The statement sequence of shutdown.ts lines 17 to 36: return the stored
promise if one exists; return without a handle if the flag is already set;
otherwise set the flag, invoke the Executor and store its promise.  No
`suspension` occurs anywhere in the body. -/
def shutdownBody : List Micro :=
  [Micro.checkPromise, Micro.checkFlag, Micro.setFlag, Micro.storePromise]

/-- Process-global coordinator state: the module-level `shutdownPromise` of
shutdown.ts, each registration's `ShutdownState.isShuttingDown` flag
(indexed by registration number), the next promise identity to allocate, and
how many times the Executor (`performShutdown`) has been invoked. -/
structure CoordState where
  shutdownPromise : Option Nat
  flags : Nat → Bool
  nextId : Nat
  starts : Nat

/-- The state of a fresh process: no in-flight promise, every
registration's flag `false`, nothing started. -/
def CoordState.init : CoordState :=
  { shutdownPromise := none, flags := fun _ => false, nextId := 0, starts := 0 }

/-- What a call to the shutdown entry point returns: the completion handle
(a promise identity), or `undefined` (the flag-only early return). -/
inductive CallResult where
  | handle (id : Nat)
  | noHandle
deriving DecidableEq, Repr

/-- Interpret the body micro-operations for a caller of registration `r`,
atomically (the body has no suspension point, so no other call can
interleave).  Falling off the end returns `undefined`; the transliterated
body always returns earlier. -/
def interpShutdown : List Micro → CoordState → Nat → CoordState × CallResult
  | [], s, _ => (s, CallResult.noHandle)
  | m :: rest, s, r =>
      match m with
      | Micro.checkPromise =>
          match s.shutdownPromise with
          | some p => (s, CallResult.handle p)
          | none => interpShutdown rest s r
      | Micro.checkFlag =>
          if s.flags r then (s, CallResult.noHandle)
          else interpShutdown rest s r
      | Micro.setFlag =>
          interpShutdown rest { s with flags := Function.update s.flags r true } r
      | Micro.storePromise =>
          ({ s with
              shutdownPromise := some s.nextId,
              nextId := s.nextId + 1,
              starts := s.starts + 1 }, CallResult.handle s.nextId)
      | Micro.suspension => interpShutdown rest s r

/-- One call to the function returned by `shutdown` (the Coordinator's
`requestShutdown`), by a trigger of registration `r`. -/
def requestShutdown (s : CoordState) (r : Nat) : CoordState × CallResult :=
  interpShutdown shutdownBody s r

/-- Run a sequence of calls to `requestShutdown`; the list holds the
registration index of each caller.  Under cooperative scheduling with a
suspension-free body, every interleaving of concurrent triggers executes as
some such sequence. -/
def runCalls : CoordState → List Nat → CoordState × List CallResult
  | s, [] => (s, [])
  | s, r :: rs =>
      let (s', res) := requestShutdown s r
      let (s'', results) := runCalls s' rs
      (s'', res :: results)

/-!
## Registration and process listeners (graceful-shutdown.ts, handlers.ts)

`process.on`/`process.off` manage a listener list keyed by function object
identity.  Each of `onSigint`, `onSigterm`, `onUncaught`, `onUnhandled` is a
factory: applying it to the handler options evaluates to a *new* function
object.  The model allocates a fresh identity per application, which is
exactly the host semantics the unregister path depends on.
-/

/-- The four process-level event sources used by graceful-shutdown.ts. -/
inductive EventKind where
  | sigint
  | sigterm
  | uncaughtException
  | unhandledRejection
deriving DecidableEq, Repr

/-- The process event-emitter world: the listener list (event kind paired
with the subscribed function object's identity, in subscription order) and
the allocator for function-object identities. -/
structure ProcWorld where
  listeners : List (EventKind × Nat)
  nextFn : Nat
deriving DecidableEq, Repr

/-- Evaluate a handler factory: a new function object is created. -/
def allocClosure (w : ProcWorld) : ProcWorld × Nat :=
  ({ w with nextFn := w.nextFn + 1 }, w.nextFn)

/-- handlers.ts `onSigint(options)`: evaluates to a fresh closure. -/
def onSigint (w : ProcWorld) : ProcWorld × Nat := allocClosure w

/-- handlers.ts `onSigterm(options)`: evaluates to a fresh closure. -/
def onSigterm (w : ProcWorld) : ProcWorld × Nat := allocClosure w

/-- handlers.ts `onUncaught(options)`: evaluates to a fresh closure. -/
def onUncaught (w : ProcWorld) : ProcWorld × Nat := allocClosure w

/-- handlers.ts `onUnhandled(options)`: evaluates to a fresh closure. -/
def onUnhandled (w : ProcWorld) : ProcWorld × Nat := allocClosure w

/-- `process.on(event, f)`: append the listener. -/
def processOn (e : EventKind) (f : Nat) (w : ProcWorld) : ProcWorld :=
  { w with listeners := w.listeners ++ [(e, f)] }

/-- Remove the first occurrence of `x`, if any. -/
def removeFirst (x : EventKind × Nat) : List (EventKind × Nat) → List (EventKind × Nat)
  | [] => []
  | y :: rest => if y = x then rest else y :: removeFirst x rest

/-- `process.off(event, f)`: remove the most recently added matching
listener; removing a function that is not subscribed is a no-op. -/
def processOff (e : EventKind) (f : Nat) (w : ProcWorld) : ProcWorld :=
  { w with listeners := (removeFirst (e, f) w.listeners.reverse).reverse }

/-- graceful-shutdown.ts `registerGracefulShutdown` (lines 30 to 40):
subscribe the four handlers, each obtained by applying its factory to the
handler options, and return the unregister operation, which — as written in
the source — applies each factory *again* at unregister time and passes the
resulting (fresh) closures to `process.off`. -/
def registerGracefulShutdown (w : ProcWorld) : ProcWorld × (ProcWorld → ProcWorld) :=
  let (w₁, h₁) := onSigint w
  let w₁ := processOn EventKind.sigint h₁ w₁
  let (w₂, h₂) := onSigterm w₁
  let w₂ := processOn EventKind.sigterm h₂ w₂
  let (w₃, h₃) := onUncaught w₂
  let w₃ := processOn EventKind.uncaughtException h₃ w₃
  let (w₄, h₄) := onUnhandled w₃
  let w₄ := processOn EventKind.unhandledRejection h₄ w₄
  (w₄, fun wu =>
    let (u₁, g₁) := onSigint wu
    let u₁ := processOff EventKind.sigint g₁ u₁
    let (u₂, g₂) := onSigterm u₁
    let u₂ := processOff EventKind.sigterm g₂ u₂
    let (u₃, g₃) := onUncaught u₂
    let u₃ := processOff EventKind.uncaughtException g₃ u₃
    let (u₄, g₄) := onUnhandled u₃
    processOff EventKind.unhandledRejection g₄ u₄)

/-!
## The Executor with time (perform-shutdown.ts, timeout race)

The timed model gives each awaited operation a duration, or marks it as
never resolving.  The timer armed at entry fires at `timeoutMs`; it wins the
race exactly when some awaited operation is still pending at that moment,
i.e. when an operation hangs or the cumulative duration exceeds the budget.
When it fires, its callback logs the fatal line and calls `process.exit(1)`
immediately: nothing after the pending `await` — later tasks, `app.close()`,
the `finally` block — ever runs.  `timer.unref()` is issued directly after
arming, before the first suspension point, so the timer never keeps the
process alive on its own.
-/

/-- A timed awaited operation: resolves or rejects after `durationMs`
milliseconds, or never settles. -/
inductive TimedOutcome where
  | completes (durationMs : Nat) (r : AwaitOutcome)
  | hangs

/-- Environment of a timed Executor run. -/
structure TimedEnv where
  timeoutMs : Nat
  tasks : List TimedOutcome
  closeOutcome : TimedOutcome

/-- The fatal line logged by the timer callback. -/
def timeoutMsg (tmo : Nat) (reason : ShutdownReason) : String :=
  "Forced shutdown timeout after " ++ toString tmo ++
    "ms (reason: " ++ reasonText reason ++ ")"

/-- Result of a timed run: the event trace, the process-relative time at
which `process.exit` executed, and the exit code passed to it. -/
structure TimedResult where
  trace : List Ev
  exitTime : Nat
  code : Nat

/-- The timed cleanup-task loop.  Returns the emitted events and, when the
loop finishes before the timer fires, the elapsed time and running exit
code; `none` means the timer fired at some pending `await` (the returned
events then already end with the fatal log and `process.exit 1`). -/
def runTimedTasks (tmo : Nat) (reason : ShutdownReason) :
    List TimedOutcome → Nat → Nat → Nat → List Ev × Option (Nat × Nat)
  | [], _, elapsed, code => ([], some (elapsed, code))
  | t :: rest, i, elapsed, code =>
      match t with
      | TimedOutcome.hangs =>
          ([Ev.invokeTask i reason, Ev.logFatal (timeoutMsg tmo reason),
            Ev.processExit 1], none)
      | TimedOutcome.completes d r =>
          if tmo < elapsed + d then
            ([Ev.invokeTask i reason, Ev.logFatal (timeoutMsg tmo reason),
              Ev.processExit 1], none)
          else
            match r with
            | AwaitOutcome.ok =>
                let res := runTimedTasks tmo reason rest (i + 1) (elapsed + d) code
                (Ev.invokeTask i reason :: res.1, res.2)
            | AwaitOutcome.threw e =>
                let res := runTimedTasks tmo reason rest (i + 1) (elapsed + d) 1
                (Ev.invokeTask i reason ::
                  Ev.logError ("Error in cleanup task: " ++ formatUnknown e) :: res.1,
                 res.2)

/-- perform-shutdown.ts with the timer race made explicit. -/
def performShutdownTimed (reason : ShutdownReason) (exitCode : Nat)
    (env : TimedEnv) : TimedResult :=
  let head := [Ev.armTimer env.timeoutMs, Ev.unrefTimer,
    Ev.logWarn ("Starting graceful shutdown (reason: " ++ reasonText reason ++ ")")]
  let loopRes := runTimedTasks env.timeoutMs reason env.tasks 0 0 exitCode
  match loopRes.2 with
  | none =>
      { trace := head ++ loopRes.1, exitTime := env.timeoutMs, code := 1 }
  | some ec =>
      match env.closeOutcome with
      | TimedOutcome.hangs =>
          { trace := head ++ loopRes.1 ++
              [Ev.appClose, Ev.logFatal (timeoutMsg env.timeoutMs reason),
               Ev.processExit 1],
            exitTime := env.timeoutMs, code := 1 }
      | TimedOutcome.completes d r =>
          if env.timeoutMs < ec.1 + d then
            { trace := head ++ loopRes.1 ++
                [Ev.appClose, Ev.logFatal (timeoutMsg env.timeoutMs reason),
                 Ev.processExit 1],
              exitTime := env.timeoutMs, code := 1 }
          else
            match r with
            | AwaitOutcome.ok =>
                { trace := head ++ loopRes.1 ++
                    [Ev.appClose, Ev.logInfo "Application closed successfully"] ++
                    [Ev.clearTimer, Ev.logInfo (exitLogMsg ec.2 reason),
                     Ev.processExit ec.2],
                  exitTime := ec.1 + d, code := ec.2 }
            | AwaitOutcome.threw e =>
                { trace := head ++ loopRes.1 ++
                    [Ev.appClose,
                     Ev.logFatal ("Error during shutdown: " ++ formatUnknown e)] ++
                    [Ev.clearTimer, Ev.logInfo (exitLogMsg 1 reason),
                     Ev.processExit 1],
                  exitTime := ec.1 + d, code := 1 }

/-- Whether, starting from `elapsed`, awaiting the listed operations in
order runs past the timer deadline (an operation hangs or the cumulative
duration exceeds `tmo`). -/
def overruns (tmo : Nat) (elapsed : Nat) : List TimedOutcome → Bool
  | [] => false
  | TimedOutcome.hangs :: _ => true
  | TimedOutcome.completes d _ :: rest =>
      decide (tmo < elapsed + d) || overruns tmo (elapsed + d) rest

/-- Whether the timer fires before the whole sequence (cleanup tasks, then
application close) completes. -/
def willTimeout (env : TimedEnv) : Bool :=
  overruns env.timeoutMs 0 (env.tasks ++ [env.closeOutcome])

/-- Index of the first operation whose `await` is still pending when the
timer fires (equals the list length when no listed operation blocks). -/
def firstBlockIdx (tmo : Nat) (elapsed : Nat) : List TimedOutcome → Nat
  | [] => 0
  | TimedOutcome.hangs :: _ => 0
  | TimedOutcome.completes d _ :: rest =>
      if tmo < elapsed + d then 0
      else 1 + firstBlockIdx tmo (elapsed + d) rest

/-- Recognizer for task-invocation events. -/
def Ev.isInvoke : Ev → Bool
  | Ev.invokeTask _ _ => true
  | _ => false

/-- Recognizer for task-invocation and application-close events. -/
def Ev.isInvokeOrClose : Ev → Bool
  | Ev.invokeTask _ _ => true
  | Ev.appClose => true
  | _ => false

/-- Recognizer for `process.exit` events. -/
def Ev.isExitEv : Ev → Bool
  | Ev.processExit _ => true
  | _ => false

/-- Whether an awaited operation resolved. -/
def AwaitOutcome.isOk : AwaitOutcome → Bool
  | AwaitOutcome.ok => true
  | AwaitOutcome.threw _ => false

/-- Total duration of a list of timed operations (hanging operations
contribute nothing; the sum is only used along runs where nothing hangs). -/
def sumDur : List TimedOutcome → Nat
  | [] => 0
  | TimedOutcome.completes d _ :: rest => d + sumDur rest
  | TimedOutcome.hangs :: rest => sumDur rest

/-!
## Coordinator lemmas
-/

/-- Full case analysis of one call: the three branches of shutdown.ts lines
17 to 36, executed as one atomic step. -/
theorem requestShutdown_cases (s : CoordState) (r : Nat) :
    requestShutdown s r =
      match s.shutdownPromise with
      | some p => (s, CallResult.handle p)
      | none =>
          if s.flags r then (s, CallResult.noHandle)
          else
            ({ shutdownPromise := some s.nextId,
               flags := Function.update s.flags r true,
               nextId := s.nextId + 1, starts := s.starts + 1 },
             CallResult.handle s.nextId) := by
  cases hp : s.shutdownPromise <;> by_cases hf : s.flags r <;>
    simp [requestShutdown, shutdownBody, interpShutdown, hp, hf]

/-- Once the module-level promise is stored, a call returns it unchanged:
the first micro-operation hits the stored handle. -/
theorem requestShutdown_of_some {s : CoordState} {p : Nat}
    (h : s.shutdownPromise = some p) (r : Nat) :
    requestShutdown s r = (s, CallResult.handle p) := by
  rw [requestShutdown_cases, h]

/-- With the promise stored, any further call sequence leaves the state
untouched and hands every caller the same handle. -/
theorem runCalls_of_some {s : CoordState} {p : Nat}
    (h : s.shutdownPromise = some p) (calls : List Nat) :
    runCalls s calls = (s, List.replicate calls.length (CallResult.handle p)) := by
  induction calls with
  | nil => simp [runCalls]
  | cons r rs ih =>
      simp [runCalls, requestShutdown_of_some h, ih, List.replicate_succ]

/-- The first call from the fresh state runs the whole check-and-set: it
sets the caller's flag, stores promise 0 and invokes the Executor once. -/
theorem requestShutdown_init (r : Nat) :
    requestShutdown CoordState.init r =
      ((requestShutdown CoordState.init r).1, CallResult.handle 0) := rfl

/-- The state after the first call has the promise stored, the caller's
flag set and one Executor start. -/
theorem after_first_promise (r : Nat) :
    (requestShutdown CoordState.init r).1.shutdownPromise = some 0 := rfl

/-- Executor-start count after the first call. -/
theorem after_first_starts (r : Nat) :
    (requestShutdown CoordState.init r).1.starts = 1 := rfl

/-- The first caller's flag is set after the first call. -/
theorem after_first_flag (r : Nat) :
    (requestShutdown CoordState.init r).1.flags r = true := by
  rw [requestShutdown_cases]
  simp [CoordState.init]

/-- A nonempty call sequence from the fresh state: the first call does the
work, everyone gets handle 0, and the state never changes again. -/
theorem runCalls_init_cons (r : Nat) (rs : List Nat) :
    runCalls CoordState.init (r :: rs) =
      ((requestShutdown CoordState.init r).1,
       List.replicate (rs.length + 1) (CallResult.handle 0)) := by
  simp only [runCalls]
  rw [runCalls_of_some (after_first_promise r) rs]
  have hres : (requestShutdown CoordState.init r).2 = CallResult.handle 0 := rfl
  rw [hres, List.replicate_succ]

/-- One call never clears a set flag: the early-return branches leave the
state alone, and the check-and-set branch only turns a flag on. -/
theorem requestShutdown_flag_mono {s : CoordState} {i : Nat}
    (h : s.flags i = true) (r : Nat) :
    (requestShutdown s r).1.flags i = true := by
  rw [requestShutdown_cases]
  cases hp : s.shutdownPromise with
  | some p => simpa using h
  | none =>
      by_cases hf : s.flags r
      · simpa [hf] using h
      · rcases eq_or_ne i r with rfl | hir
        · simp [hf]
        · simpa [hf, Function.update_apply, hir] using h

/-!
## Claim theorems: the Coordinator
-/

/-- Claim C1: for every sequence of N (N ≥ 1) calls to the shutdown entry
point within one process lifetime — concurrent calls interleave as some
sequential order because the body has no suspension point — the Executor is
invoked exactly once, every caller observes the same completion handle, and
the transliterated body `shutdownBody` contains no suspension point between
observing no in-flight handle and the flag-set/handle-store. -/
theorem shutdown_at_most_once (n : Nat) (h : 1 ≤ n) :
    (runCalls CoordState.init (List.replicate n 0)).1.starts = 1 ∧
    (runCalls CoordState.init (List.replicate n 0)).2 =
      List.replicate n (CallResult.handle 0) ∧
    Micro.suspension ∉ shutdownBody := by
  obtain ⟨m, rfl⟩ : ∃ m, n = m + 1 := ⟨n - 1, (Nat.succ_pred_eq_of_pos h).symm⟩
  rw [List.replicate_succ, runCalls_init_cons]
  refine ⟨rfl, ?_, by decide⟩
  simp

/-- Witness for C1 at N = 3. -/
theorem shutdown_at_most_once_witness :
    (runCalls CoordState.init (List.replicate 3 0)).1.starts = 1 ∧
    (runCalls CoordState.init (List.replicate 3 0)).2 =
      List.replicate 3 (CallResult.handle 0) ∧
    Micro.suspension ∉ shutdownBody :=
  shutdown_at_most_once 3 (by decide)

/-- Claim C7: once a registration's `isShuttingDown` flag is `true`, no
subsequent sequence of calls to the shutdown entry point — from any
registration — ever resets it to `false` (the Executor never writes any
`ShutdownState`, so these calls are the only writers). -/
theorem isShuttingDown_never_reset (s : CoordState) (calls : List Nat) (i : Nat)
    (h : s.flags i = true) :
    (runCalls s calls).1.flags i = true := by
  induction calls generalizing s with
  | nil => simpa [runCalls] using h
  | cons r rs ih =>
      simp only [runCalls]
      exact ih _ (requestShutdown_flag_mono h r)

/-- Witness for C7: a state with the flag set keeps it set across calls. -/
theorem isShuttingDown_never_reset_witness :
    (runCalls { shutdownPromise := none, flags := fun _ => true,
                nextId := 0, starts := 0 } [0, 1, 0]).1.flags 0 = true :=
  isShuttingDown_never_reset _ [0, 1, 0] 0 rfl

/-- Claim C9: in every state reachable from a fresh process with a single
registration, a set `isShuttingDown` flag implies the module-level promise
is stored (flag write and handle store are one atomic step — the body has
no suspension point), so the flag-only early return that yields no handle
is never taken. -/
theorem flag_implies_promise (n : Nat) :
    ((runCalls CoordState.init (List.replicate n 0)).1.flags 0 = true →
      (runCalls CoordState.init (List.replicate n 0)).1.shutdownPromise.isSome = true) ∧
    CallResult.noHandle ∉ (runCalls CoordState.init (List.replicate n 0)).2 ∧
    Micro.suspension ∉ shutdownBody := by
  cases n with
  | zero => exact ⟨fun h => absurd h (by simp [runCalls, CoordState.init]),
      by simp [runCalls], by decide⟩
  | succ m =>
      rw [List.replicate_succ, runCalls_init_cons]
      refine ⟨fun _ => rfl, ?_, by decide⟩
      simp [List.mem_replicate]

/-- Witness for C9 at n = 2: the flag is set and the promise is stored. -/
theorem flag_implies_promise_witness :
    (runCalls CoordState.init (List.replicate 2 0)).1.shutdownPromise.isSome = true ∧
    CallResult.noHandle ∉ (runCalls CoordState.init (List.replicate 2 0)).2 :=
  ⟨(flag_implies_promise 2).1 (by decide), (flag_implies_promise 2).2.1⟩

/-- Claim C10: the in-flight handle lives in one module-level variable
shared by every registration, so triggers from any mix of registrations
(arbitrary registration indices) are deduplicated against that one handle:
the Executor starts at most once per process and every caller receives the
same handle. -/
theorem single_shared_promise (calls : List Nat) :
    (runCalls CoordState.init calls).1.starts ≤ 1 ∧
    (runCalls CoordState.init calls).2 =
      List.replicate calls.length (CallResult.handle 0) := by
  cases calls with
  | nil => simp [runCalls, CoordState.init]
  | cons r rs =>
      rw [runCalls_init_cons]
      exact ⟨Nat.le_of_eq (after_first_starts r), rfl⟩

/-!
## Claim theorem: registration and unregistration (C2)
-/

/-- Claim C2 is refuted by the code: registering from a fresh process world
subscribes four handler closures (identities 0 to 3), but the returned
unregister operation applies the handler factories again and passes the
resulting fresh closures (identities 4 to 7) to `process.off`, which removes
nothing — afterwards all four original handlers are still subscribed. -/
theorem unregister_leaves_handlers_subscribed :
    (registerGracefulShutdown { listeners := [], nextFn := 0 }).1.listeners =
      [(EventKind.sigint, 0), (EventKind.sigterm, 1),
       (EventKind.uncaughtException, 2), (EventKind.unhandledRejection, 3)] ∧
    ((registerGracefulShutdown { listeners := [], nextFn := 0 }).2
        (registerGracefulShutdown { listeners := [], nextFn := 0 }).1).listeners =
      [(EventKind.sigint, 0), (EventKind.sigterm, 1),
       (EventKind.uncaughtException, 2), (EventKind.unhandledRejection, 3)] := by
  exact ⟨rfl, rfl⟩

/-!
## Executor lemmas (untimed model)
-/

/-- The running exit code after the task loop: unchanged when every task
resolved, escalated to 1 as soon as any task rejected. -/
theorem runTasks_code (reason : ShutdownReason) (ts : List AwaitOutcome) (i c : Nat) :
    (runTasks reason ts i c).2 = if ts.all AwaitOutcome.isOk then c else 1 := by
  induction ts generalizing i c with
  | nil => simp [runTasks]
  | cons t rest ih =>
      cases t with
      | ok => simp [runTasks, ih, AwaitOutcome.isOk]
      | threw e => simp [runTasks, ih, AwaitOutcome.isOk]

/-- The final exit code of the Executor: the baseline when every task and
the close resolved, and 1 otherwise. -/
theorem performShutdown_code (reason : ShutdownReason) (e : Nat) (env : ExecEnv) :
    (performShutdown reason e env).2 =
      if env.tasks.all AwaitOutcome.isOk && env.closeOutcome.isOk then e else 1 := by
  cases hc : env.closeOutcome with
  | ok => simp [performShutdown, hc, runTasks_code, AwaitOutcome.isOk]
  | threw ex => simp [performShutdown, hc, AwaitOutcome.isOk]

/-- The task-loop trace keeps exactly the invocation events, one for each
task, indexed consecutively from `i`, in order. -/
theorem runTasks_filter_invoke (reason : ShutdownReason) (ts : List AwaitOutcome)
    (i c : Nat) :
    (runTasks reason ts i c).1.filter Ev.isInvokeOrClose =
      (List.range ts.length).map fun k => Ev.invokeTask (i + k) reason := by
  induction ts generalizing i c with
  | nil => simp [runTasks]
  | cons t rest ih =>
      have harith : ((fun k => Ev.invokeTask (i + k) reason) ∘ Nat.succ) =
          fun k => Ev.invokeTask (i + 1 + k) reason := by
        funext k
        have hik : i + Nat.succ k = i + 1 + k := by omega
        simp [Function.comp, hik]
      cases t with
      | ok =>
          simp [runTasks, ih, Ev.isInvokeOrClose, List.range_succ_eq_map,
            List.map_map, harith]
      | threw e =>
          simp [runTasks, ih, Ev.isInvokeOrClose, List.range_succ_eq_map,
            List.map_map, harith]

/-- The task loop emits no `process.exit` event. -/
theorem runTasks_no_exit (reason : ShutdownReason) (ts : List AwaitOutcome)
    (i c : Nat) :
    (runTasks reason ts i c).1.filter Ev.isExitEv = [] := by
  induction ts generalizing i c with
  | nil => simp [runTasks]
  | cons t rest ih =>
      cases t with
      | ok => simp [runTasks, ih, Ev.isExitEv]
      | threw e => simp [runTasks, ih, Ev.isExitEv]

/-- A rejected task is logged: the loop emits the formatted error line. -/
theorem runTasks_logs_failure (reason : ShutdownReason) (ts : List AwaitOutcome)
    (i c : Nat) :
    ∀ ix ex, ts.get? ix = some (AwaitOutcome.threw ex) →
      Ev.logError ("Error in cleanup task: " ++ formatUnknown ex) ∈
        (runTasks reason ts i c).1 := by
  induction ts generalizing i c with
  | nil => intro ix ex h; simp at h
  | cons t rest ih =>
      intro ix ex h
      cases ix with
      | zero =>
          simp only [List.get?] at h
          cases t with
          | ok => exact absurd h (by simp)
          | threw e =>
              have he : e = ex := by injection h with h'; injection h'
              subst he
              simp [runTasks]
      | succ n =>
          simp only [List.get?] at h
          cases t with
          | ok => exact List.mem_cons_of_mem _ (ih (i + 1) c n ex h)
          | threw e =>
              exact List.mem_cons_of_mem _ (List.mem_cons_of_mem _ (ih (i + 1) 1 n ex h))

/-!
## Claim theorems: the Executor (untimed)
-/

/-- Claim C3: the caller-supplied baseline is preserved when the baseline is
0 and every cleanup task and the application close succeed; any task or
close failure escalates the final exit code to 1; and an escalation is never
reverted by later successes (the characterization in the first conjunct:
the code is the baseline exactly when everything resolved, else 1). -/
theorem exit_code_policy (reason : ShutdownReason) (e : Nat) (env : ExecEnv) :
    (performShutdown reason e env).2 =
      (if env.tasks.all AwaitOutcome.isOk && env.closeOutcome.isOk then e else 1) ∧
    (e = 0 → env.tasks.all AwaitOutcome.isOk = true →
      env.closeOutcome.isOk = true → (performShutdown reason e env).2 = 0) ∧
    (∀ pre ex post, env.tasks = pre ++ AwaitOutcome.threw ex :: post →
      (performShutdown reason e env).2 = 1) ∧
    (∀ ex, env.closeOutcome = AwaitOutcome.threw ex →
      (performShutdown reason e env).2 = 1) := by
  refine ⟨performShutdown_code reason e env, ?_, ?_, ?_⟩
  · intro h0 hall hclose
    rw [performShutdown_code, hall, hclose, h0]
    simp
  · intro pre ex post htasks
    rw [performShutdown_code, htasks]
    simp [List.all_append, AwaitOutcome.isOk]
  · intro ex hclose
    rw [performShutdown_code, hclose]
    simp [AwaitOutcome.isOk]

/-- Witness for C3: baseline 0 with all successes exits 0; a middle task
failing forces 1 even though the later task and the close succeed; a close
failure forces 1. -/
theorem exit_code_policy_witness :
    (performShutdown ShutdownReason.sigint 0
      { timeoutMs := 10000, tasks := [AwaitOutcome.ok, AwaitOutcome.ok],
        closeOutcome := AwaitOutcome.ok }).2 = 0 ∧
    (performShutdown ShutdownReason.sigint 0
      { timeoutMs := 10000,
        tasks := [AwaitOutcome.ok, AwaitOutcome.threw (JsValue.vStr "boom"),
          AwaitOutcome.ok],
        closeOutcome := AwaitOutcome.ok }).2 = 1 ∧
    (performShutdown ShutdownReason.sigint 0
      { timeoutMs := 10000, tasks := [],
        closeOutcome := AwaitOutcome.threw JsValue.vNull }).2 = 1 :=
  ⟨(exit_code_policy ShutdownReason.sigint 0 _).2.1 rfl rfl rfl,
   (exit_code_policy ShutdownReason.sigint 0 _).2.2.1
     [AwaitOutcome.ok] (JsValue.vStr "boom") [AwaitOutcome.ok] rfl,
   (exit_code_policy ShutdownReason.sigint 0 _).2.2.2 JsValue.vNull rfl⟩

/-- Claim C4: the Executor invokes each cleanup task exactly once, with the
shutdown reason, strictly sequentially in registration order, and invokes
the application close after all of them, whatever the outcomes; a rejected
task is caught and logged and the final exit code becomes 1, but neither
subsequent tasks nor the close are prevented (first conjunct: the
invocation/close events are exactly the in-order sequence, independent of
the outcome lists). -/
theorem tasks_sequential_isolated (reason : ShutdownReason) (e : Nat) (env : ExecEnv) :
    (performShutdown reason e env).1.filter Ev.isInvokeOrClose =
      ((List.range env.tasks.length).map fun k => Ev.invokeTask k reason)
        ++ [Ev.appClose] ∧
    (∀ ix ex, env.tasks.get? ix = some (AwaitOutcome.threw ex) →
      Ev.logError ("Error in cleanup task: " ++ formatUnknown ex) ∈
        (performShutdown reason e env).1 ∧
      (performShutdown reason e env).2 = 1) := by
  constructor
  · have hzero : ((List.range env.tasks.length).map
        fun k => Ev.invokeTask (0 + k) reason) =
        (List.range env.tasks.length).map fun k => Ev.invokeTask k reason := by
      simp
    cases hc : env.closeOutcome with
    | ok =>
        simp [performShutdown, hc, List.filter_append, runTasks_filter_invoke,
          Ev.isInvokeOrClose, hzero]
    | threw ex =>
        simp [performShutdown, hc, List.filter_append, runTasks_filter_invoke,
          Ev.isInvokeOrClose, hzero]
  · intro ix ex h
    constructor
    · have hmem := runTasks_logs_failure reason env.tasks 0 e ix ex h
      cases hc : env.closeOutcome with
      | ok => simp [performShutdown, hc]; exact hmem
      | threw ex' => simp [performShutdown, hc]; exact hmem
    · have hmem : AwaitOutcome.threw ex ∈ env.tasks := List.get?_mem h
      rw [performShutdown_code]
      cases hb : env.tasks.all AwaitOutcome.isOk with
      | false => simp
      | true =>
          have := List.all_eq_true.mp hb _ hmem
          simp [AwaitOutcome.isOk] at this

/-- Witness for C4: with a failing first task and a succeeding second one,
both tasks and the close are invoked in order, the failure is logged and the
final exit code is 1. -/
theorem tasks_sequential_isolated_witness :
    (performShutdown ShutdownReason.sigterm 0
      { timeoutMs := 10000,
        tasks := [AwaitOutcome.threw (JsValue.vStr "A failed"), AwaitOutcome.ok],
        closeOutcome := AwaitOutcome.ok }).1.filter Ev.isInvokeOrClose =
      [Ev.invokeTask 0 ShutdownReason.sigterm, Ev.invokeTask 1 ShutdownReason.sigterm,
       Ev.appClose] ∧
    Ev.logError ("Error in cleanup task: " ++
        formatUnknown (JsValue.vStr "A failed")) ∈
      (performShutdown ShutdownReason.sigterm 0
        { timeoutMs := 10000,
          tasks := [AwaitOutcome.threw (JsValue.vStr "A failed"), AwaitOutcome.ok],
          closeOutcome := AwaitOutcome.ok }).1 ∧
    (performShutdown ShutdownReason.sigterm 0
      { timeoutMs := 10000,
        tasks := [AwaitOutcome.threw (JsValue.vStr "A failed"), AwaitOutcome.ok],
        closeOutcome := AwaitOutcome.ok }).2 = 1 := by
  have h := tasks_sequential_isolated ShutdownReason.sigterm 0
    { timeoutMs := 10000,
      tasks := [AwaitOutcome.threw (JsValue.vStr "A failed"), AwaitOutcome.ok],
      closeOutcome := AwaitOutcome.ok }
  refine ⟨?_, (h.2 0 (JsValue.vStr "A failed") rfl).1,
    (h.2 0 (JsValue.vStr "A failed") rfl).2⟩
  simpa using h.1

/-- Claim C5: whatever the outcomes of the cleanup tasks and the application
close, the Executor is a total function whose trace ends with the `finally`
scope — disarm the timer, log the final exit code and reason, terminate with
the computed final exit code — and `process.exit` is reached exactly once,
at the very end; no exception escapes (every rejection is consumed by the
embedded `catch` blocks). -/
theorem finally_always_runs (reason : ShutdownReason) (e : Nat) (env : ExecEnv) :
    (∃ pre, (performShutdown reason e env).1 =
      pre ++ [Ev.clearTimer,
        Ev.logInfo (exitLogMsg (performShutdown reason e env).2 reason),
        Ev.processExit (performShutdown reason e env).2]) ∧
    (performShutdown reason e env).1.filter Ev.isExitEv =
      [Ev.processExit (performShutdown reason e env).2] := by
  constructor
  · cases hc : env.closeOutcome with
    | ok =>
        refine ⟨[Ev.armTimer env.timeoutMs, Ev.unrefTimer,
          Ev.logWarn ("Starting graceful shutdown (reason: " ++ reasonText reason ++ ")")]
          ++ (runTasks reason env.tasks 0 e).1
          ++ [Ev.appClose, Ev.logInfo "Application closed successfully"], ?_⟩
        simp [performShutdown, hc]
    | threw ex =>
        refine ⟨[Ev.armTimer env.timeoutMs, Ev.unrefTimer,
          Ev.logWarn ("Starting graceful shutdown (reason: " ++ reasonText reason ++ ")")]
          ++ (runTasks reason env.tasks 0 e).1
          ++ [Ev.appClose,
              Ev.logFatal ("Error during shutdown: " ++ formatUnknown ex)], ?_⟩
        simp [performShutdown, hc]
  · cases hc : env.closeOutcome with
    | ok =>
        simp [performShutdown, hc, List.filter_append, runTasks_no_exit, Ev.isExitEv]
    | threw ex =>
        simp [performShutdown, hc, List.filter_append, runTasks_no_exit, Ev.isExitEv]

/-!
## Claim theorem: defensive formatting (C8)
-/

/-- Claim C8: `formatUnknown` returns `message + stack` for actual error
objects, the JSON serialization for any other value whose serialization
succeeds, and the plain string conversion when serialization throws (the
circular case); it is a total function — never throws — and on a plain
object, a string, a circular-reference object and an error instance it
produces the expected strings. -/
theorem formatUnknown_defensive :
    (∀ m st, formatUnknown (JsValue.vErr m st) = m ++ "\n" ++ st.getD "") ∧
    (∀ v s, v.isError = false → jsonStringify v = some s → formatUnknown v = s) ∧
    (∀ v, v.isError = false → jsonStringify v = none → formatUnknown v = jsToString v) ∧
    formatUnknown (JsValue.vObj [("a", JsValue.vNum 1)] false) = "\x7b\"a\":1\x7d" ∧
    formatUnknown (JsValue.vStr "hello") = "\"hello\"" ∧
    formatUnknown (JsValue.vObj [("self", JsValue.vNull)] true) = "[object Object]" ∧
    formatUnknown (JsValue.vErr "oops" (some "stacktrace")) = "oops\nstacktrace" := by
  refine ⟨fun m st => rfl, ?_, ?_, rfl, rfl, rfl, rfl⟩
  · intro v s hv hs
    cases v <;> simp_all [formatUnknown, JsValue.isError]
  · intro v hv hs
    cases v <;> simp_all [formatUnknown, JsValue.isError]

/-- Witness for C8: the serialization branch on a boolean and the fallback
branch on a circular object, through the theorem itself. -/
theorem formatUnknown_defensive_witness :
    formatUnknown (JsValue.vBool true) = "true" ∧
    formatUnknown (JsValue.vObj [] true) = "[object Object]" :=
  ⟨formatUnknown_defensive.2.1 (JsValue.vBool true) "true" rfl rfl,
   formatUnknown_defensive.2.2.1 (JsValue.vObj [] true) rfl rfl⟩

/-!
## Timed Executor lemmas
-/

/-- Overrunning is preserved by appending further operations. -/
theorem overruns_mono_append (tmo : Nat) (xs ys : List TimedOutcome) :
    ∀ el, overruns tmo el xs = true → overruns tmo el (xs ++ ys) = true := by
  induction xs with
  | nil => intro el h; simp [overruns] at h
  | cons t rest ih =>
      intro el h
      cases t with
      | completes d r =>
          simp only [overruns, Bool.or_eq_true] at h
          rcases h with h1 | h2
          · simp [overruns, h1]
          · simp [overruns, ih _ h2]
      | hangs => simp [overruns]

/-- When a prefix fits in the budget, overrunning of the whole sequence is
decided by the remainder, started at the prefix's accumulated duration. -/
theorem overruns_append_of_false (tmo : Nat) (xs ys : List TimedOutcome) :
    ∀ el, overruns tmo el xs = false →
      overruns tmo el (xs ++ ys) = overruns tmo (el + sumDur xs) ys := by
  induction xs with
  | nil => intro el h; simp [sumDur]
  | cons t rest ih =>
      intro el h
      cases t with
      | completes d r =>
          simp only [overruns, Bool.or_eq_false_iff] at h
          obtain ⟨h1, h2⟩ := h
          simp only [List.cons_append, overruns, h1, Bool.false_or, sumDur,
            List.append_eq]
          rw [ih _ h2, Nat.add_assoc]
      | hangs => simp [overruns] at h

/-- When nothing blocks, the first blocked index is the list length. -/
theorem firstBlockIdx_of_no_overrun (tmo : Nat) (ts : List TimedOutcome) :
    ∀ el, overruns tmo el ts = false → firstBlockIdx tmo el ts = ts.length := by
  induction ts with
  | nil => intro el h; simp [firstBlockIdx]
  | cons t rest ih =>
      intro el h
      cases t with
      | completes d r =>
          simp only [overruns, Bool.or_eq_false_iff] at h
          obtain ⟨h1, h2⟩ := h
          have h1' : ¬ tmo < el + d := by simpa using h1
          simp only [firstBlockIdx, if_neg h1', ih _ h2, List.length_cons]
          omega
      | hangs => simp [overruns] at h

/-- The timed task loop when the timer fires during it: the loop result is
`none`, the trace contains the fatal timeout line, ends with
`process.exit 1`, contains no timer disarm, and no task beyond the first
blocked one is ever invoked. -/
theorem runTimedTasks_of_overruns (tmo : Nat) (reason : ShutdownReason)
    (ts : List TimedOutcome) :
    ∀ i el c, overruns tmo el ts = true →
      (runTimedTasks tmo reason ts i el c).2 = none ∧
      Ev.logFatal (timeoutMsg tmo reason) ∈ (runTimedTasks tmo reason ts i el c).1 ∧
      (∃ evs, (runTimedTasks tmo reason ts i el c).1 = evs ++ [Ev.processExit 1]) ∧
      Ev.clearTimer ∉ (runTimedTasks tmo reason ts i el c).1 ∧
      (∀ j r', Ev.invokeTask j r' ∈ (runTimedTasks tmo reason ts i el c).1 →
        j ≤ i + firstBlockIdx tmo el ts) := by
  induction ts with
  | nil => intro i el c h; simp [overruns] at h
  | cons t rest ih =>
      intro i el c h
      cases t with
      | hangs =>
          refine ⟨rfl, by simp [runTimedTasks],
            ⟨[Ev.invokeTask i reason, Ev.logFatal (timeoutMsg tmo reason)], rfl⟩,
            by simp [runTimedTasks], ?_⟩
          intro j r' hj
          simp [runTimedTasks] at hj
          omega
      | completes d r =>
          by_cases hlt : tmo < el + d
          · refine ⟨by simp [runTimedTasks, hlt], by simp [runTimedTasks, hlt],
              ⟨[Ev.invokeTask i reason, Ev.logFatal (timeoutMsg tmo reason)],
                by simp [runTimedTasks, hlt]⟩,
              by simp [runTimedTasks, hlt], ?_⟩
            intro j r' hj
            simp [runTimedTasks, hlt] at hj
            omega
          · have hrest : overruns tmo (el + d) rest = true := by
              simp only [overruns, Bool.or_eq_true] at h
              rcases h with h1 | h2
              · exact absurd (of_decide_eq_true h1) hlt
              · exact h2
            have hfb : firstBlockIdx tmo el (TimedOutcome.completes d r :: rest) =
                1 + firstBlockIdx tmo (el + d) rest := by
              simp [firstBlockIdx, hlt]
            cases r with
            | ok =>
                obtain ⟨hnone, hfatal, ⟨evs, hevs⟩, hclear, hinv⟩ :=
                  ih (i + 1) (el + d) c hrest
                refine ⟨by simp [runTimedTasks, hlt, hnone], ?_, ?_, ?_, ?_⟩
                · simp [runTimedTasks, hlt]
                  exact hfatal
                · exact ⟨Ev.invokeTask i reason :: evs,
                    by simp [runTimedTasks, hlt, hevs]⟩
                · simp [runTimedTasks, hlt]
                  exact hclear
                · intro j r' hj
                  rw [hfb]
                  simp [runTimedTasks, hlt] at hj
                  rcases hj with ⟨rfl, rfl⟩ | hj
                  · omega
                  · have := hinv j r' hj
                    omega
            | threw e =>
                obtain ⟨hnone, hfatal, ⟨evs, hevs⟩, hclear, hinv⟩ :=
                  ih (i + 1) (el + d) 1 hrest
                refine ⟨by simp [runTimedTasks, hlt, hnone], ?_, ?_, ?_, ?_⟩
                · simp [runTimedTasks, hlt]
                  exact hfatal
                · exact ⟨Ev.invokeTask i reason ::
                    Ev.logError ("Error in cleanup task: " ++ formatUnknown e) :: evs,
                    by simp [runTimedTasks, hlt, hevs]⟩
                · simp [runTimedTasks, hlt]
                  exact hclear
                · intro j r' hj
                  rw [hfb]
                  simp [runTimedTasks, hlt] at hj
                  rcases hj with ⟨rfl, rfl⟩ | hj
                  · omega
                  · have := hinv j r' hj
                    omega

/-- The timed task loop when everything fits in the budget: the loop
completes at the accumulated duration, emits no timer disarm, and invokes
only the listed tasks. -/
theorem runTimedTasks_of_no_overrun (tmo : Nat) (reason : ShutdownReason)
    (ts : List TimedOutcome) :
    ∀ i el c, overruns tmo el ts = false →
      ∃ evs c', runTimedTasks tmo reason ts i el c = (evs, some (el + sumDur ts, c')) ∧
        Ev.clearTimer ∉ evs ∧
        (∀ j r', Ev.invokeTask j r' ∈ evs → j < i + ts.length) := by
  induction ts with
  | nil =>
      intro i el c h
      exact ⟨[], c, by simp [runTimedTasks, sumDur], by simp, by simp⟩
  | cons t rest ih =>
      intro i el c h
      cases t with
      | hangs => simp [overruns] at h
      | completes d r =>
          simp only [overruns, Bool.or_eq_false_iff] at h
          obtain ⟨h1, h2⟩ := h
          have h1' : ¬ tmo < el + d := by simpa using h1
          cases r with
          | ok =>
              obtain ⟨evs, c', heq, hclear, hinv⟩ := ih (i + 1) (el + d) c h2
              refine ⟨Ev.invokeTask i reason :: evs, c', ?_, ?_, ?_⟩
              · simp only [runTimedTasks, if_neg h1', heq, sumDur]
                rw [Nat.add_assoc]
              · simp [hclear]
              · intro j r' hj
                simp at hj
                rcases hj with ⟨rfl, rfl⟩ | hj
                · simp only [List.length_cons]
                  omega
                · have := hinv j r' hj
                  simp only [List.length_cons]
                  omega
          | threw e =>
              obtain ⟨evs, c', heq, hclear, hinv⟩ := ih (i + 1) (el + d) 1 h2
              refine ⟨Ev.invokeTask i reason ::
                Ev.logError ("Error in cleanup task: " ++ formatUnknown e) :: evs,
                c', ?_, ?_, ?_⟩
              · simp only [runTimedTasks, if_neg h1', heq, sumDur]
                rw [Nat.add_assoc]
              · simp [hclear]
              · intro j r' hj
                simp at hj
                rcases hj with ⟨rfl, rfl⟩ | hj
                · simp only [List.length_cons]
                  omega
                · have := hinv j r' hj
                  simp only [List.length_cons]
                  omega

/-!
## Claim theorem: the timeout race (C6)
-/

/-- The last element of a doubly appended list ending in a known tail. -/
theorem getLast?_append_append {A B L : List Ev} {x : Ev}
    (h : L.getLast? = some x) : (A ++ (B ++ L)).getLast? = some x := by
  have hL : L ≠ [] := by
    intro hnil
    rw [hnil] at h
    simp at h
  rw [List.getLast?_append_of_ne_nil A (by simp [hL]),
    List.getLast?_append_of_ne_nil B hL, h]

/-- Claim C6: the timer armed for `timeoutMs` at Executor start is unref'd
immediately (before the first suspension point), so it never keeps the
process alive on its own; whenever it fires before the cleanup sequence and
the application close complete, the run logs the fatal forced-shutdown
timeout line and terminates at time `timeoutMs` with exit code 1, the
`finally` disarm never runs, the trace ends with that exit, and no task past
the first blocked operation is ever invoked; and when everything completes
within the budget the process exits at the completion time (at most
`timeoutMs`) with the timer disarmed. -/
theorem timeout_forces_termination (reason : ShutdownReason) (e : Nat)
    (env : TimedEnv) :
    (performShutdownTimed reason e env).trace.take 2 =
      [Ev.armTimer env.timeoutMs, Ev.unrefTimer] ∧
    (willTimeout env = true →
      (performShutdownTimed reason e env).code = 1 ∧
      (performShutdownTimed reason e env).exitTime = env.timeoutMs ∧
      Ev.logFatal (timeoutMsg env.timeoutMs reason) ∈
        (performShutdownTimed reason e env).trace ∧
      Ev.clearTimer ∉ (performShutdownTimed reason e env).trace ∧
      (performShutdownTimed reason e env).trace.getLast? =
        some (Ev.processExit 1) ∧
      (∀ j r', Ev.invokeTask j r' ∈ (performShutdownTimed reason e env).trace →
        j ≤ firstBlockIdx env.timeoutMs 0 env.tasks)) ∧
    (willTimeout env = false →
      (performShutdownTimed reason e env).exitTime ≤ env.timeoutMs ∧
      Ev.clearTimer ∈ (performShutdownTimed reason e env).trace) := by
  cases hov : overruns env.timeoutMs 0 env.tasks with
  | true =>
      obtain ⟨hnone, hfatal, ⟨evs, hevs⟩, hclear, hinv⟩ :=
        runTimedTasks_of_overruns env.timeoutMs reason env.tasks 0 0 e hov
      have hwt : willTimeout env = true :=
        overruns_mono_append env.timeoutMs env.tasks [env.closeOutcome] 0 hov
      refine ⟨?_, ?_, ?_⟩
      · simp [performShutdownTimed, hnone]
      · intro _
        refine ⟨by simp [performShutdownTimed, hnone],
          by simp [performShutdownTimed, hnone], ?_, ?_, ?_, ?_⟩
        · simp [performShutdownTimed, hnone]
          exact hfatal
        · simp [performShutdownTimed, hnone]
          exact hclear
        · simp only [performShutdownTimed, hnone]
          rw [hevs]
          refine getLast?_append_append ?_
          simp
        · intro j r' hj
          simp [performShutdownTimed, hnone] at hj
          have := hinv j r' hj
          omega
      · intro hwf
        rw [hwf] at hwt
        exact absurd hwt (by simp)
  | false =>
      obtain ⟨evs, c', heq, hclear, hinv⟩ :=
        runTimedTasks_of_no_overrun env.timeoutMs reason env.tasks 0 0 e hov
      have hwt : willTimeout env =
          overruns env.timeoutMs (0 + sumDur env.tasks) [env.closeOutcome] :=
        overruns_append_of_false env.timeoutMs env.tasks [env.closeOutcome] 0 hov
      have hfb : firstBlockIdx env.timeoutMs 0 env.tasks = env.tasks.length :=
        firstBlockIdx_of_no_overrun env.timeoutMs env.tasks 0 hov
      cases hc : env.closeOutcome with
      | hangs =>
          have hwt' : willTimeout env = true := by
            rw [hwt, hc]
            simp [overruns]
          refine ⟨?_, ?_, ?_⟩
          · simp [performShutdownTimed, heq, hc]
          · intro _
            refine ⟨by simp [performShutdownTimed, heq, hc],
              by simp [performShutdownTimed, heq, hc], ?_, ?_, ?_, ?_⟩
            · simp [performShutdownTimed, heq, hc]
            · simp [performShutdownTimed, heq, hc]
              exact hclear
            · have hred : (performShutdownTimed reason e env).trace =
                  [Ev.armTimer env.timeoutMs, Ev.unrefTimer,
                    Ev.logWarn ("Starting graceful shutdown (reason: " ++
                      reasonText reason ++ ")")] ++
                    (evs ++ [Ev.appClose,
                      Ev.logFatal (timeoutMsg env.timeoutMs reason),
                      Ev.processExit 1]) := by
                simp [performShutdownTimed, heq, hc]
              rw [hred]
              refine getLast?_append_append ?_
              rfl
            · intro j r' hj
              rw [hfb]
              simp [performShutdownTimed, heq, hc] at hj
              have := hinv j r' hj
              omega
          · intro hwf
            rw [hwf] at hwt'
            exact absurd hwt' (by simp)
      | completes d r =>
          by_cases hlt : env.timeoutMs < sumDur env.tasks + d
          · have hwt' : willTimeout env = true := by
              rw [hwt, hc]
              simp [overruns, hlt]
            refine ⟨?_, ?_, ?_⟩
            · simp [performShutdownTimed, heq, hc, hlt]
            · intro _
              refine ⟨by simp [performShutdownTimed, heq, hc, hlt],
                by simp [performShutdownTimed, heq, hc, hlt], ?_, ?_, ?_, ?_⟩
              · simp [performShutdownTimed, heq, hc, hlt]
              · simp [performShutdownTimed, heq, hc, hlt]
                exact hclear
              · have hred : (performShutdownTimed reason e env).trace =
                    [Ev.armTimer env.timeoutMs, Ev.unrefTimer,
                      Ev.logWarn ("Starting graceful shutdown (reason: " ++
                        reasonText reason ++ ")")] ++
                      (evs ++ [Ev.appClose,
                        Ev.logFatal (timeoutMsg env.timeoutMs reason),
                        Ev.processExit 1]) := by
                  simp [performShutdownTimed, heq, hc, hlt]
                rw [hred]
                refine getLast?_append_append ?_
                simp
              · intro j r' hj
                rw [hfb]
                simp [performShutdownTimed, heq, hc, hlt] at hj
                have := hinv j r' hj
                omega
            · intro hwf
              rw [hwf] at hwt'
              exact absurd hwt' (by simp)
          · have hwt' : willTimeout env = false := by
              rw [hwt, hc]
              simp [overruns, hlt]
            refine ⟨?_, ?_, ?_⟩
            · cases r <;> simp [performShutdownTimed, heq, hc, hlt]
            · intro hwtrue
              rw [hwtrue] at hwt'
              exact absurd hwt' (by simp)
            · intro _
              constructor
              · cases r <;> simp [performShutdownTimed, heq, hc, hlt] <;> omega
              · cases r <;> simp [performShutdownTimed, heq, hc, hlt]

/-- Witness for C6: a hanging task under a 50ms budget forces exit code 1 at
time 50; a run fitting the budget exits at its own completion time. -/
theorem timeout_forces_termination_witness :
    willTimeout
      { timeoutMs := 50, tasks := [TimedOutcome.hangs],
        closeOutcome := TimedOutcome.completes 0 AwaitOutcome.ok } = true ∧
    (performShutdownTimed ShutdownReason.sigterm 0
      { timeoutMs := 50, tasks := [TimedOutcome.hangs],
        closeOutcome := TimedOutcome.completes 0 AwaitOutcome.ok }).code = 1 ∧
    (performShutdownTimed ShutdownReason.sigterm 0
      { timeoutMs := 50, tasks := [TimedOutcome.hangs],
        closeOutcome := TimedOutcome.completes 0 AwaitOutcome.ok }).exitTime = 50 ∧
    (performShutdownTimed ShutdownReason.sigint 0
      { timeoutMs := 50, tasks := [TimedOutcome.completes 10 AwaitOutcome.ok],
        closeOutcome := TimedOutcome.completes 5 AwaitOutcome.ok }).exitTime ≤ 50 := by
  have ht := timeout_forces_termination ShutdownReason.sigterm 0
    { timeoutMs := 50, tasks := [TimedOutcome.hangs],
      closeOutcome := TimedOutcome.completes 0 AwaitOutcome.ok }
  have hg := timeout_forces_termination ShutdownReason.sigint 0
    { timeoutMs := 50, tasks := [TimedOutcome.completes 10 AwaitOutcome.ok],
      closeOutcome := TimedOutcome.completes 5 AwaitOutcome.ok }
  exact ⟨by decide, (ht.2.1 (by decide)).1, (ht.2.1 (by decide)).2.1,
    (hg.2.2 (by decide)).1⟩

end Concierge
